import Mathlib

/-!
Verification development for the parsing / classification / aggregation core
of the a10 Survey Manager repository (src/app).  Python functions are given a
shallow embedding: strings are Lean `String`s processed as `List Char`,
Python `float` is modelled by `ℚ` (the values and arithmetic in every claim
are exactly representable), Python `None` is `Option.none`, and Python dicts
used as severity ladders are association lists searched by first binding,
matching dict semantics (keys unique).
-/

/-! ## String utilities (Python `str` methods used by the parsers) -/

/-- Python `str.splitlines`: split on a line break, and do not produce a
trailing empty line for a terminal line break.  The source texts use
`\n` / `\r\n` / `\r`. -/
def splitlinesGo : List Char → List Char → List String
  | [], acc => match acc with
    | [] => []
    | _ => [String.mk acc.reverse]
  | '\r' :: '\n' :: t, acc => String.mk acc.reverse :: splitlinesGo t []
  | '\r' :: t, acc => String.mk acc.reverse :: splitlinesGo t []
  | '\n' :: t, acc => String.mk acc.reverse :: splitlinesGo t []
  | c :: t, acc => splitlinesGo t (c :: acc)

def splitlines (s : String) : List String :=
  splitlinesGo s.data []

/-- Python `str.strip()`: drop leading and trailing whitespace. -/
def trimChars (cs : List Char) : List Char :=
  ((cs.dropWhile Char.isWhitespace).reverse.dropWhile Char.isWhitespace).reverse

def pyStrip (s : String) : String :=
  String.mk (trimChars s.data)

/-- Python `sep in s` for a single character. -/
def containsChar (s : String) (c : Char) : Bool :=
  s.data.contains c

/-- `pat` starts the list `cs`. -/
def startsList : List Char → List Char → Bool
  | [], _ => true
  | _ :: _, [] => false
  | a :: as, b :: bs => a == b && startsList as bs

/-- Python `pat in s` (substring containment). -/
def hasSubList : List Char → List Char → Bool
  | pat, [] => startsList pat []
  | pat, c :: t => startsList pat (c :: t) || hasSubList pat t

def hasSubstr (pat s : String) : Bool :=
  hasSubList pat.data s.data

/-- Python `s.split(sep)` for a one-character separator: keeps empty pieces,
and the split of `""` is `[""]`. -/
def splitCharGo (sep : Char) : List Char → List Char → List String
  | [], acc => [String.mk acc.reverse]
  | c :: t, acc =>
    if c == sep then String.mk acc.reverse :: splitCharGo sep t []
    else splitCharGo sep t (c :: acc)

def splitChar (sep : Char) (s : String) : List String :=
  splitCharGo sep s.data []

def strIsEmpty (s : String) : Bool :=
  s.data.isEmpty

/-! ## Numeric coercion — `nfloat` (src/app/measurement.py lines 168-172,
247-252; also `_parse_float` in measurement_analisys.py / measurement_report.py,
which are the same code).  The regex is `-?\d+(?:\.\d+)?` searched after
replacing every `,` with `.`; `re.search` returns the leftmost match, with a
greedy digit run and an optional fractional part taken only when a `.` is
directly followed by a digit. -/

/-- Greedy digit run: the longest digit run at the head, and the rest. -/
def spanDigits : List Char → List Char × List Char
  | [] => ([], [])
  | c :: t =>
    if c.isDigit then
      let p := spanDigits t
      (c :: p.1, p.2)
    else ([], c :: t)

/-- Match `\d+(?:\.\d+)?` at the head of `cs`, returning the matched text. -/
def numMatchBody (cs : List Char) : Option (List Char) :=
  let p := spanDigits cs
  if p.1.isEmpty then none
  else
    match p.2 with
    | '.' :: r2 =>
      let q := spanDigits r2
      if q.1.isEmpty then some p.1 else some (p.1 ++ '.' :: q.1)
    | _ => some p.1

/-- Match `-?\d+(?:\.\d+)?` at the head of `cs`.  A leading `-` is part of the
match only when digits follow (otherwise no match starts here, exactly as for
the regex, since `-` is not a digit). -/
def numMatch (cs : List Char) : Option (List Char) :=
  match cs with
  | [] => none
  | c :: t =>
    if c = '-' then (numMatchBody t).map (fun m => '-' :: m)
    else numMatchBody (c :: t)

/-- Leftmost match of the number pattern (Python `re.search`). -/
def numSearch : List Char → Option (List Char)
  | [] => none
  | c :: t =>
    match numMatch (c :: t) with
    | some m => some m
    | none => numSearch t

def digitsVal (ds : List Char) : ℕ :=
  ds.foldl (fun n c => 10 * n + (c.toNat - 48)) 0

/-- Exact value of a matched decimal numeral (Python `float(...)` on the
matched text; all claim inputs are exactly representable). -/
def ratOfNumBody (m : List Char) : ℚ :=
  let p := spanDigits m
  match p.2 with
  | '.' :: fs => (digitsVal p.1 : ℚ) + (digitsVal fs : ℚ) / ((10 : ℚ) ^ fs.length)
  | _ => (digitsVal p.1 : ℚ)

def ratOfNum (m : List Char) : ℚ :=
  match m with
  | '-' :: rest => -(ratOfNumBody rest)
  | _ => ratOfNumBody m

/-- Replace every comma with a dot (Python `str.replace(",", ".")` for the
one-character pattern). -/
def replaceCommas (cs : List Char) : List Char :=
  cs.map (fun c => if c = ',' then '.' else c)

/-- `nfloat` from measurement.py: lenient numeric coercion.  The Python
function also accepts `None` (returning `None`); every call site in the
parsers passes a string, which is the case modelled here. -/
def nfloat (s : String) : Option ℚ :=
  (numSearch (replaceCommas s.data)).map ratOfNum

/-! Helper lemmas about the number search used for claim C9. -/

theorem numMatchBody_isSome_of_digit (c : Char) (t : List Char)
    (h : c.isDigit = true) : (numMatchBody (c :: t)).isSome = true := by
  unfold numMatchBody spanDigits
  simp only [h, if_true]
  simp only [List.isEmpty_cons, if_false, Bool.false_eq_true]
  split
  · split <;> simp
  · simp

theorem numMatch_isSome_of_digit (c : Char) (t : List Char)
    (h : c.isDigit = true) : (numMatch (c :: t)).isSome = true := by
  unfold numMatch
  have hne : ¬ c = '-' := by
    intro he
    subst he
    simp at h
  simp only [hne, if_false]
  exact numMatchBody_isSome_of_digit c t h

theorem numMatchBody_some_has_digit (l : List Char) (m : List Char)
    (h : numMatchBody l = some m) : l.any (fun c => c.isDigit) = true := by
  cases l with
  | nil =>
    unfold numMatchBody spanDigits at h
    simp at h
  | cons c t =>
    by_cases hc : c.isDigit = true
    · simp [hc]
    · unfold numMatchBody spanDigits at h
      simp [hc] at h

theorem numMatch_some_has_digit (l : List Char) (m : List Char)
    (h : numMatch l = some m) : l.any (fun c => c.isDigit) = true := by
  cases l with
  | nil => simp [numMatch] at h
  | cons c t =>
    unfold numMatch at h
    by_cases hm : c = '-'
    · subst hm
      simp only [if_true] at h
      rcases hb : numMatchBody t with _ | mb
      · rw [hb] at h; simp at h
      · have := numMatchBody_some_has_digit t mb hb
        simp [List.any_cons, this]
    · simp only [hm, if_false] at h
      exact numMatchBody_some_has_digit (c :: t) m h

theorem numSearch_isNone_iff_all (cs : List Char) :
    (numSearch cs).isNone = cs.all (fun c => !c.isDigit) := by
  induction cs with
  | nil => simp [numSearch]
  | cons c t ih =>
    unfold numSearch
    rcases hm : numMatch (c :: t) with _ | m
    · have hc : c.isDigit = false := by
        by_contra hcon
        have hcd : c.isDigit = true := by
          cases hcc : c.isDigit
          · exact absurd hcc hcon
          · rfl
        have := numMatch_isSome_of_digit c t hcd
        rw [hm] at this
        simp at this
      simp [hc, ih]
    · have hd := numMatch_some_has_digit (c :: t) m hm
      have h2 : (c :: t).all (fun c => !c.isDigit) = false := by
        cases hall : (c :: t).all (fun c => !c.isDigit)
        · rfl
        · exfalso
          rw [List.all_eq_true] at hall
          rw [List.any_eq_true] at hd
          obtain ⟨x, hx, hxd⟩ := hd
          have := hall x hx
          simp [hxd] at this
      simp [h2]

/-- C9: Numeric coercion replaces comma decimal separators with dots, extracts
the first signed-decimal-number substring, and returns null exactly when the
input contains no digit (totality: `nfloat` is a total Lean function).  In
particular "1,5 µGal" coerces to 1.5, "abc" to null, and "-3.2" to -3.2. -/
theorem nfloat_spec :
    nfloat "1,5 µGal" = some (3 / 2)
    ∧ nfloat "abc" = none
    ∧ nfloat "-3.2" = some (-16 / 5)
    ∧ (∀ s : String, (nfloat s).isNone = s.data.all (fun c => !c.isDigit)) := by
  refine ⟨?_, by decide, ?_, ?_⟩
  · simp +decide [nfloat, replaceCommas, numSearch, numMatch, numMatchBody,
      spanDigits, ratOfNum, ratOfNumBody, digitsVal]
    norm_num
  · simp +decide [nfloat, replaceCommas, numSearch, numMatch, numMatchBody,
      spanDigits, ratOfNum, ratOfNumBody, digitsVal]
    norm_num
  · intro s
    unfold nfloat
    have hmap : (Option.map ratOfNum (numSearch (replaceCommas s.data))).isNone
        = (numSearch (replaceCommas s.data)).isNone := by
      cases numSearch (replaceCommas s.data) <;> rfl
    rw [hmap, numSearch_isNone_iff_all]
    unfold replaceCommas
    rw [List.all_map]
    congr 1
    funext c
    by_cases hc : c = ','
    · subst hc; simp
    · simp [hc]

/-! ## Quality classification (src/app/measurement.py lines 338-405 and
src/app/measurement_report.py lines 126-185, with src/app/config.py lines
9-21).  A Python thresholds dict is an association list searched by first
binding; `tget` is `thresholds.get(key)`. -/

def Thresholds : Type := List (String × ℚ)

def tget (thr : Thresholds) (k : String) : Option ℚ :=
  (List.find? (fun p => p.1 == k) thr).map (fun p => p.2)

def isEmptyThr (thr : Thresholds) : Bool :=
  List.isEmpty thr

/-- The local STATUS_LADDER of measurement.py lines 338-343: only g, w, p, b. -/
def STATUS_LADDER_local : List (String × String) :=
  [("g", "good"), ("w", "warn"), ("p", "poor"), ("b", "bad")]

/-- STATUS_LADDER from config.py line 11 (imported by measurement_report.py):
g, w, p, b and u. -/
def STATUS_LADDER : List (String × String) :=
  [("g", "good"), ("w", "warn"), ("p", "poor"), ("b", "bad"), ("u", "unusable")]

/-- The classification walk: the for-loop over a status ladder shared by both
implementations (`continue` on an unconfigured code, return the label on the
first comparison that holds). -/
def walkLadder (ladder : List (String × String)) (cmp : ℚ → ℚ → Bool) (v : ℚ)
    (thr : Thresholds) : Option String :=
  match ladder with
  | [] => none
  | (key, label) :: rest =>
    match tget thr key with
    | none => walkLadder rest cmp v thr
    | some limit => if cmp v limit then some label else walkLadder rest cmp v thr

/-- The shared tail of the fallback chain: bad if "b" is configured, else poor
if "p" is configured, else warn. -/
def fallbackBadPoor (thr : Thresholds) : Option String :=
  if (tget thr "b").isSome then some "bad"
  else if (tget thr "p").isSome then some "poor"
  else some "warn"

/-- `classify_threshold` from measurement.py lines 345-378 (walks the local
4-entry ladder). -/
def classify_threshold (value : Option ℚ) (thresholds : Thresholds)
    (higher_is_better : Bool) : Option String :=
  match value with
  | none => none
  | some v =>
    if isEmptyThr thresholds then none
    else if higher_is_better then
      match walkLadder STATUS_LADDER_local (fun v l => decide (l ≤ v)) v thresholds with
      | some label => some label
      | none =>
        match tget thresholds "u" with
        | some lowerBound =>
          if v < lowerBound then some "unusable" else fallbackBadPoor thresholds
        | none => fallbackBadPoor thresholds
    else
      match walkLadder STATUS_LADDER_local (fun v l => decide (v ≤ l)) v thresholds with
      | some label => some label
      | none =>
        match tget thresholds "u" with
        | some upperBound =>
          if upperBound < v then some "unusable" else fallbackBadPoor thresholds
        | none => fallbackBadPoor thresholds

/-- `_classify_threshold` from measurement_report.py lines 126-159: the same
code, but the walked STATUS_LADDER is the 5-entry one from config.py, so the
walk also visits the "u" rung. -/
def classify_threshold_rep (value : Option ℚ) (thresholds : Thresholds)
    (higher_is_better : Bool) : Option String :=
  match value with
  | none => none
  | some v =>
    if isEmptyThr thresholds then none
    else if higher_is_better then
      match walkLadder STATUS_LADDER (fun v l => decide (l ≤ v)) v thresholds with
      | some label => some label
      | none =>
        match tget thresholds "u" with
        | some lowerBound =>
          if v < lowerBound then some "unusable" else fallbackBadPoor thresholds
        | none => fallbackBadPoor thresholds
    else
      match walkLadder STATUS_LADDER (fun v l => decide (v ≤ l)) v thresholds with
      | some label => some label
      | none =>
        match tget thresholds "u" with
        | some upperBound =>
          if upperBound < v then some "unusable" else fallbackBadPoor thresholds
        | none => fallbackBadPoor thresholds

/-- THR_desc.get(key, key.upper()) with THR_desc from config.py line 9. -/
def thrDesc (k : String) : String :=
  match List.find? (fun p => p.1 == k)
      [("g", "GOOD"), ("w", "WARN"), ("p", "POOR"), ("b", "BAD"), ("u", "UNUSABLE")] with
  | some p => p.2
  | none => k.toUpper

/-- Round to the nearest integer, ties to even (Python `round` / `%.2f`,
exact on the decimal values involved here). -/
def roundHalfEven (x : ℚ) : ℤ :=
  let f := Int.floor x
  if x - f < 1 / 2 then f
  else if 1 / 2 < x - f then f + 1
  else if f % 2 = 0 then f else f + 1

/-- Python `f"{val:.2f}"`. -/
def fmt2 (val : ℚ) : String :=
  let n := roundHalfEven (val * 100)
  let a := n.natAbs
  let fracPart := a % 100
  let fracStr := (if fracPart < 10 then "0" else "") ++ toString fracPart
  (if n < 0 then "-" else "") ++ toString (a / 100) ++ "." ++ fracStr

/-- The shared limit formatter: `f"{val:.2f}"` followed by a space and the
unit when the unit string is non-empty (both files build this same string). -/
def fmtLimit (unit : String) (val : ℚ) : String :=
  fmt2 val ++ (if strIsEmpty unit then "" else " " ++ unit)

/-- `format_threshold_tooltip` from measurement.py lines 380-405 (walks the
local 4-entry ladder, then appends the strict "u" segment). -/
def format_threshold_tooltip (value : Option ℚ) (thresholds : Thresholds)
    (unit : String) (higher_is_better : Bool) : String :=
  if isEmptyThr thresholds then ""
  else
    let comparator := if higher_is_better then "≥" else "≤"
    let parts := STATUS_LADDER_local.filterMap (fun kl =>
      (tget thresholds kl.1).map (fun limit =>
        thrDesc kl.1 ++ " " ++ comparator ++ " " ++ fmtLimit unit limit))
    let parts2 :=
      match tget thresholds "u" with
      | some unusableLimit =>
        parts ++ [thrDesc "u" ++ " " ++ (if higher_is_better then "<" else ">")
          ++ " " ++ fmtLimit unit unusableLimit]
      | none => parts
    String.intercalate " • " parts2

/-- `_format_threshold_tooltip` from measurement_report.py lines 161-185: the
same code but walking the 5-entry config STATUS_LADDER, so a configured "u"
limit also produces a non-strict segment inside the walk. -/
def format_threshold_tooltip_rep (value : Option ℚ) (thresholds : Thresholds)
    (unit : String) (higher_is_better : Bool) : String :=
  if isEmptyThr thresholds then ""
  else
    let comparator := if higher_is_better then "≥" else "≤"
    let parts := STATUS_LADDER.filterMap (fun kl =>
      (tget thresholds kl.1).map (fun limit =>
        thrDesc kl.1 ++ " " ++ comparator ++ " " ++ fmtLimit unit limit))
    let parts2 :=
      match tget thresholds "u" with
      | some unusableLimit =>
        parts ++ [thrDesc "u" ++ " " ++ (if higher_is_better then "<" else ">")
          ++ " " ++ fmtLimit unit unusableLimit]
      | none => parts
    String.intercalate " • " parts2

/-- The spec's example lower-is-better ladder (= config THR_laboratory.pss). -/
def ladLabPss : Thresholds :=
  [("g", 3 / 2), ("w", 2), ("p", 5), ("b", 10), ("u", 20)]

/-- The spec's example higher-is-better ladder (= config THR_laboratory.acc). -/
def ladAcc : Thresholds :=
  [("g", 95), ("w", 85), ("p", 75), ("b", 65), ("u", 55)]

/-- C1 counterexample: the spec's example table says 7.0 classifies as poor on
the lower-is-better ladder g 1.5 / w 2.0 / p 5.0 / b 10.0 / u 20.0, but both
implementations return "bad" (7.0 is above the poor limit 5.0 and at most the
bad limit 10.0). -/
theorem classify_example_table_cex :
    classify_threshold (some 7) ladLabPss false ≠ some "poor"
    ∧ classify_threshold_rep (some 7) ladLabPss false ≠ some "poor" := by
  constructor
  · norm_num +decide [classify_threshold, walkLadder, STATUS_LADDER_local,
      tget, ladLabPss, fallbackBadPoor, isEmptyThr]
  · norm_num +decide [classify_threshold_rep, walkLadder, STATUS_LADDER,
      tget, ladLabPss, fallbackBadPoor, isEmptyThr]

/-- C1 amended: the example table as the code computes it.  Lower-is-better
ladder g 1.5 / w 2.0 / p 5.0 / b 10.0 / u 20.0: 1.2 is good, 7.0 is bad (not
poor), 25.0 is unusable, null gives no label — in both implementations.
Higher-is-better ladder g 95 / w 85 / p 75 / b 65 / u 55: 97 is good and 70 is
bad in both; 60 is bad in measurement.py's classify_threshold but unusable in
measurement_report.py's _classify_threshold (its walked ladder contains the
u rung). -/
theorem classify_example_table_amended :
    classify_threshold (some (6 / 5)) ladLabPss false = some "good"
    ∧ classify_threshold_rep (some (6 / 5)) ladLabPss false = some "good"
    ∧ classify_threshold (some 7) ladLabPss false = some "bad"
    ∧ classify_threshold_rep (some 7) ladLabPss false = some "bad"
    ∧ classify_threshold (some 25) ladLabPss false = some "unusable"
    ∧ classify_threshold_rep (some 25) ladLabPss false = some "unusable"
    ∧ classify_threshold none ladLabPss false = none
    ∧ classify_threshold_rep none ladLabPss false = none
    ∧ classify_threshold (some 97) ladAcc true = some "good"
    ∧ classify_threshold_rep (some 97) ladAcc true = some "good"
    ∧ classify_threshold (some 70) ladAcc true = some "bad"
    ∧ classify_threshold_rep (some 70) ladAcc true = some "bad"
    ∧ classify_threshold (some 60) ladAcc true = some "bad"
    ∧ classify_threshold_rep (some 60) ladAcc true = some "unusable" := by
  refine ⟨?_, ?_, ?_, ?_, ?_, ?_, rfl, rfl, ?_, ?_, ?_, ?_, ?_, ?_⟩ <;>
    norm_num +decide [classify_threshold, classify_threshold_rep, walkLadder,
      STATUS_LADDER_local, STATUS_LADDER, tget, ladLabPss, ladAcc,
      fallbackBadPoor, isEmptyThr]

theorem walkLadder_cons (key label : String) (rest : List (String × String))
    (cmp : ℚ → ℚ → Bool) (v : ℚ) (thr : Thresholds) :
    walkLadder ((key, label) :: rest) cmp v thr =
      match tget thr key with
      | none => walkLadder rest cmp v thr
      | some limit =>
        if cmp v limit then some label else walkLadder rest cmp v thr := rfl

theorem walkLadder_append (l1 l2 : List (String × String)) (cmp : ℚ → ℚ → Bool)
    (v : ℚ) (thr : Thresholds) :
    walkLadder (l1 ++ l2) cmp v thr =
      match walkLadder l1 cmp v thr with
      | some s => some s
      | none => walkLadder l2 cmp v thr := by
  induction l1 with
  | nil => rfl
  | cons kl rest ih =>
    obtain ⟨key, label⟩ := kl
    rw [List.cons_append, walkLadder_cons, walkLadder_cons]
    cases htg : tget thr key with
    | none => simpa using ih
    | some limit =>
      by_cases hcmp : cmp v limit = true
      · simp [hcmp]
      · simp only [Bool.not_eq_true] at hcmp
        simpa [hcmp] using ih

/-- A ladder configuring only the unusable limit. -/
def uOnly : Thresholds := [("u", 20)]

theorem fmt2_twenty : fmt2 20 = "20.00" := by
  have h1 : roundHalfEven ((20 : ℚ) * 100) = 2000 := by
    unfold roundHalfEven
    norm_num
  unfold fmt2
  rw [h1]
  decide

/-- C4 counterexample: the two copies are not equivalent.  On the laboratory
pss ladder (u = 20 configured), value 15 classifies as "bad" in measurement.py
but "unusable" in measurement_report.py; and on a ladder configuring only a u
limit the report tooltip carries an extra non-strict UNUSABLE segment from its
walk of the 5-entry ladder. -/
theorem classify_duplicate_impls_cex :
    classify_threshold (some 15) ladLabPss false
      ≠ classify_threshold_rep (some 15) ladLabPss false
    ∧ format_threshold_tooltip (some 15) uOnly "" false
      ≠ format_threshold_tooltip_rep (some 15) uOnly "" false := by
  constructor
  · norm_num +decide [classify_threshold, classify_threshold_rep, walkLadder,
      STATUS_LADDER_local, STATUS_LADDER, tget, ladLabPss, fallbackBadPoor,
      isEmptyThr]
  · simp +decide only [format_threshold_tooltip, format_threshold_tooltip_rep,
      STATUS_LADDER_local, STATUS_LADDER, tget, uOnly, isEmptyThr, thrDesc,
      fmtLimit, fmt2_twenty, strIsEmpty, List.filterMap, List.find?]

/-- C4 amended: the two duplicated implementations agree whenever the ladder
configures no "u" limit — same label for every value and both directionality
flags, and same tooltip string for every unit.  (With a "u" limit configured
they can differ, as the counterexample shows.) -/
theorem classify_impls_agree_no_u :
    ∀ (value : Option ℚ) (thr : Thresholds) (unit : String) (higher : Bool),
      tget thr "u" = none →
        classify_threshold value thr higher = classify_threshold_rep value thr higher
        ∧ format_threshold_tooltip value thr unit higher
            = format_threshold_tooltip_rep value thr unit higher := by
  intro value thr unit higher hu
  have hsplit : STATUS_LADDER = STATUS_LADDER_local ++ [("u", "unusable")] := rfl
  have hwalk : ∀ (cmp : ℚ → ℚ → Bool) (v : ℚ),
      walkLadder STATUS_LADDER cmp v thr = walkLadder STATUS_LADDER_local cmp v thr := by
    intro cmp v
    rw [hsplit, walkLadder_append]
    have hu2 : walkLadder [("u", "unusable")] cmp v thr = none := by
      rw [walkLadder_cons, hu]
      rfl
    rw [hu2]
    cases walkLadder STATUS_LADDER_local cmp v thr <;> rfl
  have hfm : ∀ (f : String × String → Option String),
      STATUS_LADDER.filterMap f =
        STATUS_LADDER_local.filterMap f ++ [("u", "unusable")].filterMap f := by
    intro f
    rw [hsplit, List.filterMap_append]
  constructor
  · cases value with
    | none => rfl
    | some v =>
      unfold classify_threshold classify_threshold_rep
      simp only [hwalk]
  · unfold format_threshold_tooltip format_threshold_tooltip_rep
    simp [hfm, hu]

theorem classify_impls_agree_no_u_witness :
    tget [("g", (1 : ℚ))] "u" = none
    ∧ (classify_threshold (some 2) [("g", 1)] false
          = classify_threshold_rep (some 2) [("g", 1)] false
       ∧ format_threshold_tooltip (some 2) [("g", 1)] "" false
          = format_threshold_tooltip_rep (some 2) [("g", 1)] "" false) :=
  ⟨by decide, classify_impls_agree_no_u (some 2) [("g", 1)] "" false (by decide)⟩

/-- Refinement target for C5, written from the spec's §4.5 wording: walk the
severity order g, w, p, b and return the first configured code whose limit is
≥ the value (lower-is-better; ≤ for higher-is-better); if none matched, fall
back to unusable when a "u" limit exists and the value exceeds it (is below
it, for higher-is-better), else bad when "b" is configured, else poor when
"p" is configured, else warn; return no label when the value is null or the
ladder is entirely empty. -/
def classifySpec (value : Option ℚ) (thr : Thresholds) (higher : Bool) :
    Option String :=
  match value with
  | none => none
  | some v =>
    if isEmptyThr thr then none
    else
      let firstHit := STATUS_LADDER_local.findSome? (fun kl =>
        (tget thr kl.1).bind (fun limit =>
          if (if higher then decide (limit ≤ v) else decide (v ≤ limit)) then
            some kl.2
          else none))
      match firstHit with
      | some label => some label
      | none =>
        match tget thr "u" with
        | some uLimit =>
          if (if higher then decide (v < uLimit) else decide (uLimit < v)) then
            some "unusable"
          else if (tget thr "b").isSome then some "bad"
          else if (tget thr "p").isSome then some "poor"
          else some "warn"
        | none =>
          if (tget thr "b").isSome then some "bad"
          else if (tget thr "p").isSome then some "poor"
          else some "warn"

theorem walkLadder_eq_findSome (ladder : List (String × String))
    (cmp : ℚ → ℚ → Bool) (v : ℚ) (thr : Thresholds) :
    walkLadder ladder cmp v thr =
      ladder.findSome? (fun kl =>
        (tget thr kl.1).bind (fun limit =>
          if cmp v limit then some kl.2 else none)) := by
  induction ladder with
  | nil => rfl
  | cons kl rest ih =>
    obtain ⟨key, label⟩ := kl
    rw [walkLadder_cons, List.findSome?_cons]
    cases htg : tget thr key with
    | none => simpa using ih
    | some limit =>
      by_cases hcmp : cmp v limit = true
      · simp [hcmp]
      · simp only [Bool.not_eq_true] at hcmp
        simpa [hcmp] using ih

theorem fallbackBadPoor_isSome (thr : Thresholds) :
    (fallbackBadPoor thr).isSome = true := by
  unfold fallbackBadPoor
  split
  · rfl
  · split <;> rfl

/-- C5: measurement.py's classify_threshold conforms to the spec's
classification algorithm (first configured code in severity order g, w, p, b
whose limit is ≥ the value for lower-is-better / ≤ for higher-is-better, then
the u / bad / poor / warn fallback chain), and it returns no label exactly
when the value is null or the ladder is entirely empty — so a label is always
produced for a non-null value and non-empty ladder. -/
theorem classify_threshold_spec_conformance :
    (∀ (value : Option ℚ) (thr : Thresholds) (higher : Bool),
      classify_threshold value thr higher = classifySpec value thr higher)
    ∧ (∀ (value : Option ℚ) (thr : Thresholds) (higher : Bool),
      (classify_threshold value thr higher).isNone
        = (value.isNone || isEmptyThr thr)) := by
  constructor
  · intro value thr higher
    cases value with
    | none => rfl
    | some v =>
      unfold classify_threshold classifySpec
      by_cases he : isEmptyThr thr = true
      · simp [he]
      · simp only [Bool.not_eq_true] at he
        cases higher <;>
          simp only [he, Bool.false_eq_true, if_false, if_true,
            walkLadder_eq_findSome, fallbackBadPoor, decide_eq_true_eq]
  · intro value thr higher
    cases value with
    | none => rfl
    | some v =>
      unfold classify_threshold
      by_cases he : isEmptyThr thr = true
      · simp [he]
      · simp only [Bool.not_eq_true] at he
        simp only [he, Bool.false_eq_true, if_false, Option.isNone_some,
          Bool.false_or]
        cases higher
        · simp only [if_false, Bool.false_eq_true]
          cases walkLadder STATUS_LADDER_local (fun v l => decide (v ≤ l)) v thr
          · cases htg : tget thr "u"
            · simp [htg, fallbackBadPoor_isSome]
            · simp only [htg]
              split
              · rfl
              · simp [fallbackBadPoor_isSome]
          · rfl
        · simp only [if_true]
          cases walkLadder STATUS_LADDER_local (fun v l => decide (l ≤ v)) v thr
          · cases htg : tget thr "u"
            · simp [htg, fallbackBadPoor_isSome]
            · simp only [htg]
              split
              · rfl
              · simp [fallbackBadPoor_isSome]
          · rfl

/-! ## Set-table parsing — `parse_sets_text` (src/app/measurement.py lines
210-278).  The Python function returns a dict with a single key "rows"; the
embedding returns the row list directly. -/

/-- The stripped non-blank lines: `[ln.strip() for ln in text.splitlines()
if ln.strip()]`. -/
def cleanLines (text : String) : List String :=
  ((splitlines text).map pyStrip).filter (fun ln => !(strIsEmpty ln))

/-- Header predicate: `("Set" in ln and "\t" in ln) or ("Set" in ln and
"," in ln)`. -/
def isHeaderLine (ln : String) : Bool :=
  (hasSubstr "Set" ln && containsChar ln '\t')
    || (hasSubstr "Set" ln && containsChar ln ',')

/-- Header detection: first of the first 10 non-blank lines that matches,
else a fixed fallback index (3 when more than 4 lines, else 0). -/
def hdrIdx (lines : List String) : ℕ :=
  match List.findIdx? isHeaderLine (lines.take 10) with
  | some i => i
  | none => if lines.length > 4 then 3 else 0

/-- Delimiter: tab when the chosen header line contains one, else comma. -/
def sepOf (lines : List String) : Char :=
  if containsChar (lines.getD (hdrIdx lines) "") '\t' then '\t' else ','

/-- `[c.strip() for c in ln.split(sep)]`. -/
def splitFields (sep : Char) (ln : String) : List String :=
  (splitChar sep ln).map pyStrip

/-- `hdr.index(name)` wrapped to -1 on ValueError; `none` models -1. -/
def colIdx (hdr : List String) (name : String) : Option ℕ :=
  List.findIdx? (fun h => h == name) hdr

/-- `get(i)` from the row loop: "" for the -1 sentinel / out-of-range. -/
def getCol (cols : List String) (i : Option ℕ) : String :=
  match i with
  | none => ""
  | some j => cols.getD j ""

/-- One parsed set row.  `drop_acc_pct` is the source's accepted-drops
percentage field (accept x 100 / (accept + reject), rounded to 1 decimal). -/
structure SetRow where
  id : String
  set_scatter : Option ℚ
  set_sigma : Option ℚ
  drop_rms : Option ℚ
  drop_accept : Option ℚ
  drop_reject : Option ℚ
  drop_acc_pct : Option ℚ
deriving DecidableEq

/-- Python `round(x, 1)` (exact decimal, ties to even). -/
def pyRound1 (x : ℚ) : ℚ :=
  ((roundHalfEven (x * 10) : ℤ) : ℚ) / 10

/-- The body of the row loop: skip a line with fewer than 2 delimited fields,
otherwise append a SetRow built from the bound columns (the id defaults to
the 1-based output position when the Set column is blank or unmapped). -/
def addRow (sep : Char) (idxSet idxScatter idxSigma idxRms idxAcc idxRej : Option ℕ)
    (rows : List SetRow) (ln : String) : List SetRow :=
  let cols := splitFields sep ln
  if cols.length < 2 then rows
  else
    let accVal := nfloat (getCol cols idxAcc)
    let rejVal := nfloat (getCol cols idxRej)
    let pctVal : Option ℚ :=
      match accVal, rejVal with
      | some a, some r =>
        if 0 < a + r then some (pyRound1 (a * 100 / (a + r))) else none
      | _, _ => none
    let rawId := getCol cols idxSet
    rows ++ [{ id := if strIsEmpty rawId then toString (rows.length + 1) else rawId,
               set_scatter := nfloat (getCol cols idxScatter),
               set_sigma := nfloat (getCol cols idxSigma),
               drop_rms := nfloat (getCol cols idxRms),
               drop_accept := accVal,
               drop_reject := rejVal,
               drop_acc_pct := pctVal }]

/-- `parse_sets_text`: tolerant parser for the set export.  Fewer than 5
non-blank lines gives no rows; otherwise detect the header, bind columns by
exact header-name lookup, and build one row per subsequent non-blank line
with at least 2 delimited fields. -/
def parse_sets_text (text : String) : List SetRow :=
  let lines := cleanLines text
  if lines.length < 5 then []
  else
    let h := hdrIdx lines
    let sep := sepOf lines
    let hdr := splitFields sep (lines.getD h "")
    let idxSet := colIdx hdr "Set"
    let idxScatter :=
      if hdr.contains "Sigma" then colIdx hdr "Sigma" else colIdx hdr "Set Scatter"
    let idxSigma := colIdx hdr "Error"
    let idxRms := colIdx hdr "Uncert"
    let idxAcc := colIdx hdr "Accept"
    let idxRej := colIdx hdr "Reject"
    (lines.drop (h + 1)).foldl
      (addRow sep idxSet idxScatter idxSigma idxRms idxAcc idxRej) []

/-- C3: fewer than 5 non-blank lines means no rows at all — header detection
and row parsing are never reached. -/
theorem parse_sets_short_input :
    ∀ text : String, (cleanLines text).length < 5 → parse_sets_text text = [] := by
  intro text h
  unfold parse_sets_text
  simp [h]

theorem parse_sets_short_input_witness :
    (cleanLines "Set\tAccept\n1\t2").length < 5
    ∧ parse_sets_text "Set\tAccept\n1\t2" = [] :=
  ⟨by decide, parse_sets_short_input "Set\tAccept\n1\t2" (by decide)⟩

/-- The spec's example set export exactly as claimed: the header line and the
single data row, nothing else. -/
def c2input : String :=
  "Set\tSigma\tError\tUncert\tAccept\tReject\n1\t5.0\t0.8\t1.2\t18\t2"

/-- The SetRow the spec's example expects for the data row. -/
def c2row : SetRow :=
  { id := "1", set_scatter := some 5, set_sigma := some (4 / 5),
    drop_rms := some (6 / 5), drop_accept := some 18, drop_reject := some 2,
    drop_acc_pct := some 90 }

/-- C2 counterexample: on the two-line example input the parser returns no
rows at all (the input has fewer than 5 non-blank lines), not the single
claimed SetRow. -/
theorem parse_sets_two_line_cex :
    parse_sets_text c2input = [] ∧ parse_sets_text c2input ≠ [c2row] := by
  constructor
  · decide
  · decide

/-- The example export padded with three preamble lines so that it clears the
5-non-blank-line minimum (header detected at index 3). -/
def c2padded : String :=
  "a\nb\nc\nSet\tSigma\tError\tUncert\tAccept\tReject\n1\t5.0\t0.8\t1.2\t18\t2"

theorem addRow_foldl_length (sep : Char)
    (a b c d e f : Option ℕ) (l : List String) :
    ∀ init : List SetRow,
      (l.foldl (addRow sep a b c d e f) init).length
        = init.length + l.countP (fun ln => 2 ≤ (splitFields sep ln).length) := by
  induction l with
  | nil => intro init; simp
  | cons ln rest ih =>
    intro init
    rw [List.foldl_cons, ih]
    by_cases hlen : (splitFields sep ln).length < 2
    · have h2 : ¬(2 ≤ (splitFields sep ln).length) := by omega
      have ha : addRow sep a b c d e f init ln = init := by
        unfold addRow
        simp [hlen]
      rw [ha]
      simp [List.countP_cons, h2]
    · have h2 : 2 ≤ (splitFields sep ln).length := by omega
      have ha : (addRow sep a b c d e f init ln).length = init.length + 1 := by
        unfold addRow
        simp [hlen]
      rw [ha]
      simp [List.countP_cons, h2]
      omega

/-- C2 amended: the example header/row pair parses to exactly the claimed
SetRow once the input has at least 5 non-blank lines (here: three preamble
lines before it); and in general, for any input with at least 5 non-blank
lines, one SetRow is built for each non-blank line after the detected header
that has at least 2 delimited fields. -/
theorem parse_sets_example_amended :
    parse_sets_text c2padded = [c2row]
    ∧ (∀ text : String, 5 ≤ (cleanLines text).length →
        (parse_sets_text text).length
          = ((cleanLines text).drop (hdrIdx (cleanLines text) + 1)).countP
              (fun ln => 2 ≤ (splitFields (sepOf (cleanLines text)) ln).length)) := by
  constructor
  · have hcl : cleanLines c2padded =
        ["a", "b", "c", "Set\tSigma\tError\tUncert\tAccept\tReject",
          "1\t5.0\t0.8\t1.2\t18\t2"] := by decide
    have h50 : nfloat "5.0" = some 5 := by
      simp +decide [nfloat, replaceCommas, numSearch, numMatch, numMatchBody,
        spanDigits, ratOfNum, ratOfNumBody, digitsVal]
    have h08 : nfloat "0.8" = some (4 / 5) := by
      simp +decide [nfloat, replaceCommas, numSearch, numMatch, numMatchBody,
        spanDigits, ratOfNum, ratOfNumBody, digitsVal]
      norm_num
    have h12 : nfloat "1.2" = some (6 / 5) := by
      simp +decide [nfloat, replaceCommas, numSearch, numMatch, numMatchBody,
        spanDigits, ratOfNum, ratOfNumBody, digitsVal]
      norm_num
    have h18 : nfloat "18" = some 18 := by
      simp +decide [nfloat, replaceCommas, numSearch, numMatch, numMatchBody,
        spanDigits, ratOfNum, ratOfNumBody, digitsVal]
    have h2 : nfloat "2" = some 2 := by
      simp +decide [nfloat, replaceCommas, numSearch, numMatch, numMatchBody,
        spanDigits, ratOfNum, ratOfNumBody, digitsVal]
    have hround : pyRound1 (90 : ℚ) = 90 := by
      unfold pyRound1 roundHalfEven
      norm_num
    unfold parse_sets_text
    rw [hcl]
    norm_num +decide [hdrIdx, isHeaderLine, hasSubstr, hasSubList, startsList,
      containsChar, sepOf, splitFields, splitChar, splitCharGo, pyStrip,
      trimChars, colIdx, getCol, strIsEmpty, addRow, List.foldl, h50, h08, h12,
      h18, h2, hround, c2row]
  · intro text hlen
    have h5 : ¬((cleanLines text).length < 5) := by omega
    unfold parse_sets_text
    simp only [h5, if_false]
    simpa using addRow_foldl_length (sepOf (cleanLines text)) _ _ _ _ _ _
      ((cleanLines text).drop (hdrIdx (cleanLines text) + 1)) []

theorem parse_sets_example_amended_witness :
    5 ≤ (cleanLines c2padded).length
    ∧ (parse_sets_text c2padded).length
        = ((cleanLines c2padded).drop (hdrIdx (cleanLines c2padded) + 1)).countP
            (fun ln => 2 ≤ (splitFields (sepOf (cleanLines c2padded)) ln).length) :=
  ⟨by decide, parse_sets_example_amended.2 c2padded (by decide)⟩

/-! ## Aggregation — `_calc_stats` and `_inverted_weighted_average`
(src/app/measurement_analisys.py lines 132-177).  `_clean` drops None (and
float NaN, which has no counterpart in the exact model ℚ).  The statistics
module calls are Python stdlib, not repository code. -/

def clean (values : List (Option ℚ)) : List ℚ :=
  values.filterMap id

/-- Modelled from the spec: `statistics.fmean` (Python stdlib, not in src) —
the arithmetic mean sum / count. -/
def fmean (xs : List ℚ) : ℚ :=
  xs.sum / (xs.length : ℚ)

/-- Modelled from the spec: the sample variance with N-1 denominator inside
`statistics.stdev` (Python stdlib, not in src). -/
def sampleVar (xs : List ℚ) : ℚ :=
  (xs.map (fun x => (x - fmean xs) ^ 2)).sum / ((xs.length : ℚ) - 1)

/-- Modelled from the spec: `statistics.stdev` (Python stdlib, not in src) —
the square root of the sample variance.  The square root is real-valued;
everything else in the embedding stays in ℚ. -/
noncomputable def sampleStdev (xs : List ℚ) : ℝ :=
  Real.sqrt ((sampleVar xs : ℚ) : ℝ)

/-- The result record of `_calc_stats`. -/
structure Stats where
  count : ℕ
  min : Option ℚ
  max : Option ℚ
  avg : Option ℚ
  stdev : Option ℝ

/-- `_calc_stats`: drop null values; empty result gives the all-null record;
a single value gives stdev 0; otherwise the sample standard deviation.  (The
`except StatisticsError` branch in the source is unreachable for 2 or more
points and is not modelled.) -/
noncomputable def calc_stats (values : List (Option ℚ)) : Stats :=
  match clean values with
  | [] => ⟨0, none, none, none, none⟩
  | x :: rest =>
    let stdev : ℝ := if rest.isEmpty then 0 else sampleStdev (x :: rest)
    ⟨(x :: rest).length, some (rest.foldl min x), some (rest.foldl max x),
      some (fmean (x :: rest)), some stdev⟩

/-- `_inverted_weighted_average`'s loop: weighted values and weights, in input
order, for the qualifying pairs. -/
def iwaLoop : List (Option ℚ × Option ℚ) → List ℚ × List ℚ
  | [] => ([], [])
  | p :: rest =>
    let acc := iwaLoop rest
    match p with
    | (some value, some uncertainty) =>
      if uncertainty ≤ 0 then acc
      else (value * (1 / uncertainty) :: acc.1, 1 / uncertainty :: acc.2)
    | _ => acc

/-- `_inverted_weighted_average`: None when no pair qualifies, otherwise the
weight-1/tu average. -/
def inverted_weighted_average (pairs : List (Option ℚ × Option ℚ)) : Option ℚ :=
  let acc := iwaLoop pairs
  if acc.2.isEmpty then none
  else some (acc.1.sum / acc.2.sum)

/-- A pair qualifies when both components are present and the uncertainty is
positive. -/
def qualifying (p : Option ℚ × Option ℚ) : Option (ℚ × ℚ) :=
  match p with
  | (some v, some u) => if 0 < u then some (v, u) else none
  | _ => none

theorem iwaLoop_eq_filterMap (l : List (Option ℚ × Option ℚ)) :
    iwaLoop l = ((l.filterMap qualifying).map (fun t => t.1 * (1 / t.2)),
      (l.filterMap qualifying).map (fun t => 1 / t.2)) := by
  induction l with
  | nil => rfl
  | cons p rest ih =>
    obtain ⟨ov, ou⟩ := p
    unfold iwaLoop
    cases ov with
    | none => simpa [qualifying, List.filterMap_cons] using ih
    | some v =>
      cases ou with
      | none => simpa [qualifying, List.filterMap_cons] using ih
      | some u =>
        by_cases hu : u ≤ 0
        · have hq : qualifying (some v, some u) = none := by
            unfold qualifying
            simp [not_lt.2 hu]
          simp [hq, List.filterMap_cons, hu, ih]
        · have hpos : 0 < u := lt_of_not_le hu
          have hq : qualifying (some v, some u) = some (v, u) := by
            unfold qualifying
            simp [hpos]
          simp [hq, List.filterMap_cons, hu, ih]

/-- C8: the uncertainty-weighted average considers exactly the pairs with
both components present and positive uncertainty, weighs each by 1/tu, and
returns the weighted sum over the weight sum — None exactly when no pair
qualifies.  The pair (100, tu 2) and (104, tu 1) gives 308/3 (about 102.67). -/
theorem inverted_weighted_average_spec :
    (∀ pairs : List (Option ℚ × Option ℚ),
      inverted_weighted_average pairs =
        (if (pairs.filterMap qualifying).isEmpty then none
         else some
           (((pairs.filterMap qualifying).map (fun t => t.1 * (1 / t.2))).sum /
             ((pairs.filterMap qualifying).map (fun t => 1 / t.2)).sum)))
    ∧ inverted_weighted_average [(some 100, some 2), (some 104, some 1)]
        = some (308 / 3) := by
  constructor
  · intro pairs
    unfold inverted_weighted_average
    rw [iwaLoop_eq_filterMap]
    cases pairs.filterMap qualifying with
    | nil => rfl
    | cons q qs => rfl
  · simp only [inverted_weighted_average, iwaLoop]
    norm_num

/-- C7: descriptive statistics drop null values and are total: the empty (or
all-null) input gives {count 0, min/max/avg/stdev null}; one value gives
stdev 0; two or more values give the sample standard deviation with N-1
denominator; and [10, 12, 14] gives count 3, min 10, max 14, avg 12,
stdev 2. -/
theorem calc_stats_spec :
    calc_stats [] = ⟨0, none, none, none, none⟩
    ∧ (∀ n : ℕ, calc_stats (List.replicate n none) = ⟨0, none, none, none, none⟩)
    ∧ (∀ v : ℚ, calc_stats [some v] = ⟨1, some v, some v, some v, some 0⟩)
    ∧ (∀ values : List (Option ℚ), 2 ≤ (clean values).length →
        (calc_stats values).stdev = some (sampleStdev (clean values)))
    ∧ calc_stats [some 10, some 12, some 14]
        = ⟨3, some 10, some 14, some 12, some 2⟩ := by
  refine ⟨rfl, ?_, ?_, ?_, ?_⟩
  · intro n
    have hcl : clean (List.replicate n none) = ([] : List ℚ) := by
      induction n with
      | zero => rfl
      | succ k ih =>
        simpa [clean, List.replicate_succ, List.filterMap_cons] using ih
    unfold calc_stats
    rw [hcl]
  · intro v
    have hcl : clean [some v] = [v] := rfl
    unfold calc_stats
    rw [hcl]
    simp [fmean]
  · intro values h2
    unfold calc_stats
    cases hcl : clean values with
    | nil => rw [hcl] at h2; simp at h2
    | cons x rest =>
      rw [hcl] at h2
      have hne : rest.isEmpty = false := by
        cases rest
        · simp at h2
        · rfl
      simp [hne]
  · have hvar : sampleVar [10, 12, 14] = 4 := by
      unfold sampleVar fmean
      norm_num
    have hsd : sampleStdev [10, 12, 14] = 2 := by
      unfold sampleStdev
      rw [hvar]
      rw [show ((4 : ℚ) : ℝ) = (2 : ℝ) ^ 2 by norm_num]
      exact Real.sqrt_sq (by norm_num)
    have hcl : clean [some 10, some 12, some 14] = [10, 12, 14] := rfl
    unfold calc_stats
    rw [hcl]
    simp only [List.foldl, List.isEmpty_cons, if_false, Bool.false_eq_true]
    rw [hsd]
    norm_num [Stats.mk.injEq, min_def, max_def, fmean]

/-! ## Text decoding — `_decode_text` (src/app/measurement.py lines 39-45)
with PREFERRED_ENCODINGS (src/app/config.py lines 48-55). -/

def PREFERRED_ENCODINGS : List String :=
  ["utf-8", "utf-16", "utf-16le", "utf-16be", "cp1252", "latin-1"]

/-- The encoding named in the source's final replacement-policy decode,
`data.decode("utf-8", errors="replace")` — the first (most general) entry of
PREFERRED_ENCODINGS. -/
def FALLBACK_ENCODING : String := "utf-8"

/-- Modelled from the spec: the codec machinery (`bytes.decode`) is Python
stdlib, not repository code.  A strict codec either decodes a byte sequence
to text or fails with UnicodeDecodeError (`none` here); the replacement-policy
decode is lossy but total.  This is the source's for-loop over the candidate
codecs with `except UnicodeDecodeError: continue`. -/
def decodeTry (codecs : List (List ℕ → Option String)) (data : List ℕ) :
    Option String :=
  match codecs with
  | [] => none
  | c :: rest =>
    match c data with
    | some s => some s
    | none => decodeTry rest data

/-- `_decode_text`: try each preferred encoding in order, then fall back to
the replacement-policy decode, so text is always produced. -/
def decode_text (codecs : List (List ℕ → Option String))
    (replacementDecode : List ℕ → String) (data : List ℕ) : String :=
  match decodeTry codecs data with
  | some s => s
  | none => replacementDecode data

theorem decodeTry_eq_findSome (codecs : List (List ℕ → Option String))
    (data : List ℕ) :
    decodeTry codecs data = codecs.findSome? (fun c => c data) := by
  induction codecs with
  | nil => rfl
  | cons c rest ih =>
    show (match c data with
      | some s => some s
      | none => decodeTry rest data) = _
    rw [List.findSome?_cons]
    cases c data with
    | none => simpa using ih
    | some s => rfl

/-- C6: decoding is total.  For every byte sequence and every family of
strict codecs, `decode_text` returns the first successful strict decoding and
otherwise the replacement-policy decoding — a total function into String, so
it never fails.  The replacement decode in the source uses "utf-8", the first
(most general) entry of the preferred-encoding list. -/
theorem decode_text_total_cascade :
    (∀ (codecs : List (List ℕ → Option String))
        (replacementDecode : List ℕ → String) (data : List ℕ),
      decode_text codecs replacementDecode data
        = (codecs.findSome? (fun c => c data)).getD (replacementDecode data))
    ∧ PREFERRED_ENCODINGS.head? = some FALLBACK_ENCODING := by
  constructor
  · intro codecs repl data
    unfold decode_text
    rw [decodeTry_eq_findSome]
    cases codecs.findSome? (fun c => c data) <;> rfl
  · rfl

/-! ## Project key/value extraction — the keys loop of `parse_project_text`
(src/app/measurement.py lines 143-150) with KV_RE (src/app/config.py line 58:
the pattern is start, optional whitespace, a 1-128-character non-colon group,
optional whitespace, a colon, optional whitespace, a lazy non-empty group,
optional whitespace, end). -/

/-- All characters before the first colon, and the rest. -/
def spanNonColon : List Char → List Char × List Char
  | [] => ([], [])
  | c :: t =>
    if c = ':' then ([], c :: t)
    else
      let p := spanNonColon t
      (c :: p.1, p.2)

/-- `KV_RE.match(line)` followed by `.strip()` of both groups.  The regex
matches exactly when the line has a colon with at least one character before
it and at least one after it, and the trimmed text before the first colon is
at most 128 characters long; key and value are then that trimmed text and the
trimmed remainder.  (The source's `line.strip("\n")` is a no-op after
splitlines.) -/
def kvMatch (line : String) : Option (String × String) :=
  let p := spanNonColon line.data
  match p.2 with
  | ':' :: tail =>
    if p.1.isEmpty then none
    else if tail.isEmpty then none
    else if (trimChars p.1).length ≤ 128 then
      some (String.mk (trimChars p.1), String.mk (trimChars tail))
    else none
  | _ => none

/-- `if k not in keys: keys[k] = v` — insert only when the key is absent. -/
def kvInsert (keys : List (String × String)) (k v : String) :
    List (String × String) :=
  if (List.find? (fun p => p.1 == k) keys).isSome then keys
  else keys ++ [(k, v)]

/-- The line loop of parse_project_text, started from an arbitrary map. -/
def foldKV (keys : List (String × String)) (lines : List String) :
    List (String × String) :=
  lines.foldl (fun acc line =>
    match kvMatch line with
    | some kv => kvInsert acc kv.1 kv.2
    | none => acc) keys

/-- The keys map built by `parse_project_text` (its `keys` dict). -/
def parse_project_keys (text : String) : List (String × String) :=
  foldKV [] (splitlines text)

theorem foldKV_nodup (lines : List String) :
    ∀ keys : List (String × String),
      (keys.map Prod.fst).Nodup → ((foldKV keys lines).map Prod.fst).Nodup := by
  induction lines with
  | nil => intro keys h; exact h
  | cons line rest ih =>
    intro keys h
    have hstep : foldKV keys (line :: rest) =
        foldKV (match kvMatch line with
          | some kv => kvInsert keys kv.1 kv.2
          | none => keys) rest := rfl
    rw [hstep]
    cases hm : kvMatch line with
    | none => exact ih keys h
    | some kv =>
      apply ih
      unfold kvInsert
      by_cases hf : (List.find? (fun p => p.1 == kv.1) keys).isSome = true
      · simpa [hf] using h
      · have hnone : List.find? (fun p => p.1 == kv.1) keys = none := by
          cases hff : List.find? (fun p => p.1 == kv.1) keys
          · rfl
          · rw [hff] at hf; simp at hf
        have hnotmem : kv.1 ∉ keys.map Prod.fst := by
          intro hmem
          obtain ⟨p, hp, hpe⟩ := List.mem_map.1 hmem
          have := List.find?_eq_none.1 hnone p hp
          simp [hpe] at this
        simp only [Bool.not_eq_true] at hf
        simp [hf, List.map_append, List.nodup_append, h, hnotmem]

/-- C10: key/value extraction is first-occurrence-wins.  The example text
"A: 1\nA: 2\n" yields exactly the map A to 1; the built map never holds two
entries for one key; and inserting a line whose key is already bound leaves
the map the parser builds unchanged (the later value is discarded). -/
theorem project_keys_first_wins :
    parse_project_keys "A: 1\nA: 2\n" = [("A", "1")]
    ∧ (∀ text : String, ((parse_project_keys text).map Prod.fst).Nodup)
    ∧ (∀ (pre : List String) (line : String) (post : List String) (k v : String),
        kvMatch line = some (k, v) →
        (List.find? (fun p => p.1 == k) (foldKV [] pre)).isSome = true →
        foldKV [] (pre ++ line :: post) = foldKV [] (pre ++ post)) := by
  refine ⟨by decide, ?_, ?_⟩
  · intro text
    exact foldKV_nodup (splitlines text) [] (by simp)
  · intro pre line post k v hm hf
    have happ : ∀ (l1 l2 : List String) (keys : List (String × String)),
        foldKV keys (l1 ++ l2) = foldKV (foldKV keys l1) l2 := by
      intro l1 l2 keys
      unfold foldKV
      rw [List.foldl_append]
    rw [happ, happ]
    have hstep : foldKV (foldKV [] pre) (line :: post)
        = foldKV (kvInsert (foldKV [] pre) k v) post := by
      have : foldKV (foldKV [] pre) (line :: post) =
          foldKV (match kvMatch line with
            | some kv => kvInsert (foldKV [] pre) kv.1 kv.2
            | none => foldKV [] pre) post := rfl
      rw [this, hm]
    rw [hstep]
    unfold kvInsert
    rw [if_pos hf]

theorem project_keys_first_wins_witness :
    kvMatch "A: 2" = some ("A", "2")
    ∧ (List.find? (fun p => p.1 == "A") (foldKV [] ["A: 1"])).isSome = true
    ∧ foldKV [] (["A: 1"] ++ "A: 2" :: []) = foldKV [] (["A: 1"] ++ []) :=
  ⟨by decide, by decide,
    project_keys_first_wins.2.2 ["A: 1"] "A: 2" [] "A" "2" (by decide) (by decide)⟩

theorem calc_stats_spec_witness :
    2 ≤ (clean [some 1, some 3]).length
    ∧ (calc_stats [some 1, some 3]).stdev
        = some (sampleStdev (clean [some 1, some 3])) :=
  ⟨by decide, calc_stats_spec.2.2.2.1 [some 1, some 3] (by decide)⟩
